import Mathlib

/-!
Shallow embedding of the `orate` repository's job-lifecycle, progress-estimation
and speaker-alignment logic, together with theorems settling the frozen claims.

Sources embedded:
  * `src/orate/db/models.py`  — `JobStatus`, and the `Job` table's columns
    (lines 38-46): id, kind, payload_json, status, result_ref, error,
    created_at, updated_at.  The table declares NO progress, stage,
    eta_seconds or started_at columns;
  * `src/orate/db/session.py` — `get_session` returns a fresh
    `Session(engine)` for every crud call (lines 18-19), so the only state
    that survives a call is what the commit flushes to the database, and
    that is only the mapped columns: crud's writes to `job.progress`,
    `job.stage`, `job.eta_seconds` and `job.started_at` are transient
    instance attributes that are discarded when the session closes;
  * `src/orate/db/crud.py`    — `create_job`, `mark_job_running`,
    `update_job_progress`, `update_job_status`, modelled by their effect on
    the persisted rows (the job store is an association list of rows keyed
    by id; `_now()` is an explicit parameter);
  * `src/orate/api/transcribe.py` — `_run_transcription_job` and its inner
    `_progress_cb` (the pipeline is modelled as the sequence of store calls it
    issues, parameterised by the environment outcomes it observes);
  * `src/orate/services/whisper.py` — `TranscribeOpts.resolved`,
    `_assign_speakers_to_segments`;
  * `src/orate/api/jobs.py`   — caller of the job delete operation.

Python floats are modelled as `ℚ`; Python `None` as `Option`; falsy-string
tests (`x or d`, `if best_spk:`) are modelled explicitly.
-/

/-- `JobStatus` from `src/orate/db/models.py`. -/
inductive JobStatus where
  | queued
  | running
  | done
  | error
deriving DecidableEq, Repr

/-- A persisted `Job` row: exactly the columns declared by the `Job` table
in `src/orate/db/models.py` lines 38-46.  There are no progress, stage,
eta_seconds or started_at columns, so crud's writes to those attribute
names never reach the store.  Timestamps are abstract rational clock values
supplied by the caller in place of `_now()`. -/
structure Job where
  id : String
  kind : String
  payload_json : String
  status : JobStatus
  result_ref : Option String
  error : Option String
  created_at : ℚ
  updated_at : ℚ
deriving DecidableEq, Repr

/-- The job table: rows keyed by the job id (primary key). -/
abbrev Store := List (String × Job)

/-- `session.get(Job, job_id)`: first row with the given id. -/
def Store.get : Store → String → Option Job
  | [], _ => none
  | p :: t, i => if p.1 = i then some p.2 else Store.get t i

/-- Committing a mutated row: every row with the given id is replaced. -/
def Store.put : Store → String → Job → Store
  | [], _, _ => []
  | p :: t, i, j => (if p.1 = i then (i, j) else p) :: Store.put t i j

/-- `session.delete` + commit: remove the rows with the given id. -/
def Store.erase : Store → String → Store
  | [], _ => []
  | p :: t, i => if p.1 = i then Store.erase t i else p :: Store.erase t i

/-- `crud.create_job` (src/orate/db/crud.py lines 120-145): inserts a fresh
row.  The call also passes progress=0.0, stage="queued", eta_seconds=None
and started_at=None, but those are not columns of the `Job` table, so the
persisted row carries only the eight mapped columns. -/
def create_job (s : Store) (id kind payload_json : String) (status : JobStatus)
    (now : ℚ) : Store :=
  (id, { id := id, kind := kind, payload_json := payload_json, status := status,
         result_ref := none, error := none,
         created_at := now, updated_at := now }) :: s

/-- `crud.mark_job_running` (crud.py lines 148-159): no-op when the row is
absent; otherwise the commit persists status=running and updated_at.  The
writes to job.stage, job.progress and job.started_at hit no column of the
`Job` table and are discarded when the fresh session closes.  There is no
guard on the current status. -/
def mark_job_running (s : Store) (job_id : String) (now : ℚ) : Store :=
  match s.get job_id with
  | none => s
  | some job =>
      s.put job_id { job with status := JobStatus.running,
                              updated_at := now }

/-- The clamp `p = max(0.0, min(1.0, float(progress)))` computed by
`crud.update_job_progress` (crud.py line 169).  The code assigns it to
`job.progress`, which is not a column of the `Job` table, so the value is
never persisted. -/
def clampedProgress (progress : ℚ) : ℚ :=
  max 0 (min 1 progress)

/-- `crud.update_job_progress` (crud.py lines 162-180): no-op when the row
is absent; otherwise the commit persists only updated_at.  The clamped
progress (`clampedProgress`) and the provided stage/eta_seconds are
assigned to attribute names that are not columns of the `Job` table, so
nothing of them reaches the store.  There is no guard on the current
status. -/
def update_job_progress (s : Store) (job_id : String) (progress : ℚ)
    (stage : Option String) (eta_seconds : Option ℚ) (now : ℚ) : Store :=
  let _p := clampedProgress progress
  match s.get job_id with
  | none => s
  | some job =>
      s.put job_id { job with updated_at := now }

/-- `crud.update_job_status` (crud.py lines 183-201): overwrites status,
result_ref and error (both from the call's arguments, defaulting to null);
no-op when the row is absent.  Progress is not touched. -/
def update_job_status (s : Store) (job_id : String) (status : JobStatus)
    (result_ref : Option String) (error : Option String) (now : ℚ) : Store :=
  match s.get job_id with
  | none => s
  | some job =>
      s.put job_id { job with status := status, result_ref := result_ref,
                              error := error, updated_at := now }

/-- Modelled from the spec: `crud.delete_job`, the row-delete behind the
`DELETE /api/jobs/{job_id}` route of `src/orate/api/jobs.py` (which calls
`crud.delete_job`), is absent from `src/orate/db/crud.py`.  Spec §4.1:
"`delete(job_id) → bool` (true if a row existed and was removed)"; modelled
after the shape of the sibling `crud.delete_transcript`. -/
def delete_job (s : Store) (job_id : String) : Bool × Store :=
  match s.get job_id with
  | none => (false, s)
  | some _ => (true, s.erase job_id)

/-- Terminal statuses of the job state machine. -/
def JobStatus.isTerminal : JobStatus → Bool
  | JobStatus.done => true
  | JobStatus.error => true
  | _ => false

/-! ## Progress estimator (`_progress_cb` in src/orate/api/transcribe.py) -/

/-- The body of `_progress_cb` (transcribe.py lines 40-49) as the pure
function of `(decoded_s, total, elapsed)` it computes before handing the pair
to `update_job_progress`: when `total > 0`, progress is `min(decoded/total,
0.99)` and eta is `(elapsed / max(prog, 1e-3)) * (1 - prog)`; otherwise
progress is `min(0.9, elapsed / 60)` with no eta. -/
def progress_cb (decoded total elapsed : ℚ) : ℚ × Option ℚ :=
  if 0 < total then
    let prog := min (decoded / total) (99 / 100)
    (prog, some ((elapsed / max prog (1 / 1000)) * (1 - prog)))
  else
    (min (9 / 10) (elapsed / 60), none)

/-- `total` as computed in `_run_transcription_job` (transcribe.py lines
31-36): `float(rec.duration_s or 0.0)`, and when that is `<= 0` the probed
duration (`0.0` if probing raises). -/
def computeTotal (duration_s : ℚ) (probe : Option ℚ) : ℚ :=
  if duration_s ≤ 0 then probe.getD 0 else duration_s

/-! ## Transcription pipeline (`_run_transcription_job`) as a call trace -/

/-- The fields of a `Recording` row the pipeline reads (models.py /
crud.get_recording); existence of `original_path` on disk is carried
separately in the environment. -/
structure Recording where
  id : String
  original_path : String
  duration_s : ℚ
deriving DecidableEq, Repr

/-- Outcome of the body of the pipeline's `try` block once the model is
loading: either `transcribe_audio` and the transcript insert succeed and
`storage.new_id("tr")` yields the given id, or some step raises with the
given exception message. -/
inductive TxOutcome where
  | ok (trId : String)
  | failed (msg : String)
deriving DecidableEq, Repr

/-- Everything `_run_transcription_job` observes from its environment: the
`get_recording` result, whether the recording's original file exists, the
`probe_duration` outcome, the `(decoded_s, elapsed)` value at each progress
callback fired inside `transcribe_audio`, and the try-block outcome. -/
structure PipelineEnv where
  recording : Option Recording
  fileExists : Bool
  probe : Option ℚ
  cbs : List (ℚ × ℚ)
  outcome : TxOutcome
deriving DecidableEq, Repr

/-- One observable action of the pipeline: a crud call on the job row, a
model load, or a transcript insert. -/
inductive PAct where
  | markRunning
  | updProgress (p : ℚ) (stage : Option String) (eta : Option ℚ)
  | updStatus (st : JobStatus) (ref err : Option String)
  | loadModel
  | createTranscript (trId : String)
deriving DecidableEq, Repr

/-- The actions of the `try` block of `_run_transcription_job`
(transcribe.py lines 51-98): the 0.01 "loading_model" update, the model load
inside `transcribe_audio`, one "decoding" update per progress callback, and
then either the 0.99 "writing_output" update, transcript insert and `done`
transition, or the `error` transition of the `except` clause. -/
def tryActs (total : ℚ) (cbs : List (ℚ × ℚ)) (outcome : TxOutcome) :
    List PAct :=
  PAct.updProgress (1 / 100) (some "loading_model") none ::
  PAct.loadModel ::
  (cbs.map fun c =>
    PAct.updProgress (progress_cb c.1 total c.2).1 (some "decoding")
      (progress_cb c.1 total c.2).2) ++
  (match outcome with
   | TxOutcome.ok trId =>
       [PAct.updProgress (99 / 100) (some "writing_output") (some 0),
        PAct.createTranscript trId,
        PAct.updStatus JobStatus.done (some trId) none]
   | TxOutcome.failed msg =>
       [PAct.updStatus JobStatus.error none (some msg)])

/-- The full action trace of `_run_transcription_job` (transcribe.py lines
18-98): fail fast with "recording_not_found" when the recording row is
absent, with "original_missing" when its file is gone; otherwise mark the
job running and execute the try block. -/
def runTranscriptionActs (env : PipelineEnv) : List PAct :=
  match env.recording with
  | none => [PAct.updStatus JobStatus.error none (some "recording_not_found")]
  | some r =>
      if env.fileExists = false then
        [PAct.updStatus JobStatus.error none (some "original_missing")]
      else
        PAct.markRunning ::
        tryActs (computeTotal r.duration_s env.probe) env.cbs env.outcome

/-- Interpret one pipeline action on the job store (model loads and
transcript inserts do not touch the job table). -/
def applyAct (jobId : String) (now : ℚ) (s : Store) : PAct → Store
  | PAct.markRunning => mark_job_running s jobId now
  | PAct.updProgress p st eta => update_job_progress s jobId p st eta now
  | PAct.updStatus st ref err => update_job_status s jobId st ref err now
  | PAct.loadModel => s
  | PAct.createTranscript _ => s

/-- Final store after a list of pipeline actions. -/
def runActs (jobId : String) (now : ℚ) (s : Store) (acts : List PAct) :
    Store :=
  acts.foldl (applyAct jobId now) s

/-- Every store state along a list of pipeline actions, initial state
included. -/
def actStates (jobId : String) (now : ℚ) (s : Store) : List PAct → List Store
  | [] => [s]
  | a :: acts => s :: actStates jobId now (applyAct jobId now s a) acts

/-- The spec's terminal-state invariant on a job row: exactly one of
result_ref / error is non-null once the status is terminal, and both are
null while it is not. -/
def refErrInvariant (j : Job) : Prop :=
  if j.status.isTerminal then
    (j.result_ref ≠ none ∧ j.error = none) ∨
    (j.result_ref = none ∧ j.error ≠ none)
  else
    j.result_ref = none ∧ j.error = none

instance (j : Job) : Decidable (refErrInvariant j) := by
  unfold refErrInvariant
  infer_instance

/-- The job row visible after the whole pipeline run: the job is created
`queued` (API route, transcribe.py lines 110-115) and then
`_run_transcription_job` executes against it; `now0` is the creation time
and `now` the (single, abstract) clock value of the background task. -/
def pipelineFinal (env : PipelineEnv) (jobId kind payload : String)
    (now0 now : ℚ) : Option Job :=
  (runActs jobId now (create_job [] jobId kind payload JobStatus.queued now0)
    (runTranscriptionActs env)).get jobId

/-- The spec's terminal-state invariant lifted to the job row of a store. -/
def StoreInv (i : String) (s : Store) : Prop :=
  ∀ j, s.get i = some j → refErrInvariant j

/-- A concrete successful-run environment used to instantiate the pipeline
theorems: the recording exists with duration 100, its file is present, one
progress callback fires at decoded 50 / elapsed 10, and the try block
succeeds producing transcript id "tr1". -/
def envOkW : PipelineEnv :=
  { recording := some { id := "r", original_path := "a.wav",
                        duration_s := 100 },
    fileExists := true, probe := none, cbs := [(50, 10)],
    outcome := TxOutcome.ok "tr1" }

/-- A concrete environment whose recording id is unknown. -/
def envMissW : PipelineEnv :=
  { recording := none, fileExists := true, probe := none, cbs := [],
    outcome := TxOutcome.ok "t" }

/-- A concrete environment whose recording exists but whose original file
is gone. -/
def envNoFileW : PipelineEnv :=
  { recording := some { id := "r", original_path := "a.wav",
                        duration_s := 100 },
    fileExists := false, probe := none, cbs := [],
    outcome := TxOutcome.ok "t" }

/-- The persisted job row produced by the successful concrete run `envOkW`
(created at time 0, executed at time 1). -/
def jobFinalW : Job :=
  { id := "j", kind := "transcribe", payload_json := "{}",
    status := JobStatus.done, result_ref := some "tr1", error := none,
    created_at := 0, updated_at := 1 }

/-! ## Segment aligner (`_assign_speakers_to_segments` in
src/orate/services/whisper.py, lines 133-154)

A transcription segment is its `(start, end)` pair of seconds; a diarization
segment is `(start, end, speaker_label)`.  The returned Python dict keyed by
the segment index is modelled as the association list of its insertions. -/

/-- The inner `overlap` helper (whisper.py lines 138-141). -/
def segOverlap (a0 a1 b0 b1 : ℚ) : ℚ :=
  max 0 (min a1 b1 - max a0 b0)

/-- One iteration of the inner loop over `diar_segments` (whisper.py lines
147-151): replace the `(best_spk, best_ov)` pair whenever this segment's
overlap is strictly greater than the best so far. -/
def bestStep (a0 a1 : ℚ) (acc : Option String × ℚ) (d : ℚ × ℚ × String) :
    Option String × ℚ :=
  if acc.2 < segOverlap a0 a1 d.1 d.2.1
  then (some d.2.2, segOverlap a0 a1 d.1 d.2.1)
  else acc

/-- The inner loop over `diar_segments` for one whisper segment, starting
from `best_spk = None, best_ov = 0.0` (whisper.py lines 145-151). -/
def bestSpeaker (a0 a1 : ℚ) (ds : List (ℚ × ℚ × String)) :
    Option String × ℚ :=
  ds.foldl (bestStep a0 a1) (none, 0)

/-- The enumeration loop of `_assign_speakers_to_segments` starting at index
`k`: an entry `(i, best_spk)` is inserted exactly when `best_spk` is truthy
(`if best_spk:` — so neither `None` nor the empty string). -/
def assignFrom (k : Nat) (ws : List (ℚ × ℚ))
    (ds : List (ℚ × ℚ × String)) : List (Nat × String) :=
  match ws with
  | [] => []
  | w :: rest =>
      (match (bestSpeaker w.1 w.2 ds).1 with
       | some spk => if spk = "" then [] else [(k, spk)]
       | none => []) ++ assignFrom (k + 1) rest ds

/-- `_assign_speakers_to_segments`: the mapping built over the enumerated
whisper segments. -/
def assign_speakers_to_segments (ws : List (ℚ × ℚ))
    (ds : List (ℚ × ℚ × String)) : List (Nat × String) :=
  assignFrom 0 ws ds

/-- Lookup in the built mapping (Python `mapping.get(i)` /
`speaker_by_index.get(i)`; the inserted keys are distinct). -/
def mapLookup (m : List (Nat × String)) (i : Nat) : Option String :=
  (m.find? fun p => p.1 = i).map fun p => p.2

/-- Spec-worded greatest overlap: the maximum of
`max(0, min(s1,b1) - max(s0,b0))` over all speaker segments (0 when there
are none).  Used only to state the aligner claim the way the spec words it. -/
def specMaxOverlap (a0 a1 : ℚ) (ds : List (ℚ × ℚ × String)) : ℚ :=
  (ds.map fun d => segOverlap a0 a1 d.1 d.2.1).foldr max 0

/-- Spec-worded selection ("select the speaker segment with strictly
greatest overlap, ties broken by first-encountered; if no speaker segment
overlaps, the transcription segment is left unassigned"): the label of the
earliest speaker segment attaining the maximal overlap, provided that
maximum is positive. -/
def specAssignSpeaker (a0 a1 : ℚ) (ds : List (ℚ × ℚ × String)) :
    Option String :=
  if 0 < specMaxOverlap a0 a1 ds then
    (ds.find? fun d =>
        segOverlap a0 a1 d.1 d.2.1 = specMaxOverlap a0 a1 ds).map
      fun d => d.2.2
  else none

/-! ## Diarization step and transcript assembly
(`_try_diarize` and the output loop of `transcribe_audio`, whisper.py) -/

/-- The label-normalisation loop of `_try_diarize` (whisper.py lines
119-128): raw labels are remapped to "Speaker 1..N" in first-seen order;
`uniq` is the raw-to-display map built so far and `next` the next number. -/
def normGo : List (ℚ × ℚ × String) → List (String × String) → Nat →
    List (ℚ × ℚ × String)
  | [], _, _ => []
  | e :: t, uniq, next =>
      match uniq.find? (fun u => u.1 = e.2.2) with
      | some u => (e.1, e.2.1, u.2) :: normGo t uniq next
      | none =>
          (e.1, e.2.1, "Speaker " ++ toString next) ::
            normGo t ((e.2.2, "Speaker " ++ toString next) :: uniq) (next + 1)

/-- Speaker-label normalisation over the raw diarization entries. -/
def normalizeSpeakerLabels (entries : List (ℚ × ℚ × String)) :
    List (ℚ × ℚ × String) :=
  normGo entries [] 1

/-- `_try_diarize` (whisper.py lines 101-130): the pyannote import, model
fetch and pipeline run are external; their combined outcome is either a
list of raw `(start, end, label)` entries or an exception message.  Every
failure is caught and surfaces as `none`; success is label-normalised. -/
def try_diarize (pyannote : Except String (List (ℚ × ℚ × String))) :
    Option (List (ℚ × ℚ × String)) :=
  match pyannote with
  | Except.error _ => none
  | Except.ok entries => some (normalizeSpeakerLabels entries)

/-- One transcript text line (whisper.py lines 216-218): the speaker label
and ": " are prepended only when the looked-up label is truthy (present and
non-empty); Python `.strip()` is modelled by `String.trim`. -/
def segLine (spk : Option String) (text : String) : String :=
  (match spk with
   | some s => if s = "" then "" else s ++ ": "
   | none => "") ++ text.trim

/-- The enumerated output loop over the decoded segments (whisper.py lines
214-218), text lines only, starting at index `k`. -/
def txtLinesFrom (k : Nat) (segs : List (ℚ × ℚ × String))
    (spkMap : List (Nat × String)) : List String :=
  match segs with
  | [] => []
  | g :: t => segLine (mapLookup spkMap k) g.2.2 :: txtLinesFrom (k + 1) t spkMap

/-- The transcript body of `transcribe_audio` (whisper.py lines 197-227) as
a function of the decoded `(start, end, text)` segments, the diarization
toggle, and the diarization capability outcome: `speaker_by_index` stays
empty unless diarization was requested and `_try_diarize` returned a
non-empty entry list (`if diar_segments:`). -/
def transcribeTxtLines (segs : List (ℚ × ℚ × String)) (diarize : Bool)
    (pyannote : Except String (List (ℚ × ℚ × String))) : List String :=
  let diar := if diarize then try_diarize pyannote else none
  let spkMap :=
    match diar with
    | some ds =>
        if ds = [] then []
        else assign_speakers_to_segments (segs.map fun g => (g.1, g.2.1)) ds
    | none => []
  txtLinesFrom 0 segs spkMap

/-! ## `TranscribeOpts.resolved` (src/orate/services/whisper.py, lines 14-59)

Strings carry Python-string semantics where it matters: `x or d` falls
through to `d` when `x` is `None` *or* the empty string, and the
`field_validator` lowercases `model`, `device` and `compute` on every
construction (modelled by `lowerValidate`, applied to the record `resolved`
builds).  `lowerStr` models `str.lower` on the ASCII letters. -/

/-- ASCII lowercasing of one character (Python `str.lower` restricted to
ASCII, which is also how the repository's option strings are used). -/
def lowerChar (c : Char) : Char :=
  if 65 ≤ c.toNat ∧ c.toNat ≤ 90 then Char.ofNat (c.toNat + 32) else c

/-- ASCII `str.lower` over a whole string. -/
def lowerStr (s : String) : String :=
  ⟨s.data.map lowerChar⟩

/-- Python `x or default` on an optional string: the default replaces both
`None` and the empty string. -/
def pyOrS (x : Option String) (d : String) : String :=
  match x with
  | none => d
  | some s => if s = "" then d else s

/-- Python `bool(x)` on an optional bool (`None` is falsy). -/
def pyOrB (x : Option Bool) : Bool :=
  match x with
  | none => false
  | some b => b

/-- The `TranscribeOpts` pydantic model (whisper.py lines 14-34). -/
structure TranscribeOpts where
  model : Option String
  device : Option String
  compute : Option String
  language : Option String
  srt : Option Bool
  vad : Option Bool
  beam_size : Option Int
  best_of : Option Int
  temperature : Option ℚ
  prompt : Option String
  condition_on_previous_text : Option Bool
  word_timestamps : Option Bool
  diarize : Option Bool
deriving DecidableEq, Repr

/-- The `_lower` field validator (whisper.py lines 36-39), run whenever a
`TranscribeOpts` is constructed: lowercases `model`, `device`, `compute`. -/
def lowerValidate (o : TranscribeOpts) : TranscribeOpts :=
  { o with model := o.model.map lowerStr,
           device := o.device.map lowerStr,
           compute := o.compute.map lowerStr }

/-- `TranscribeOpts.resolved` (whisper.py lines 41-59): fills the model,
device and compute defaults and normalises `srt`; constructing the result
runs the `_lower` validator. -/
def TranscribeOpts.resolved (o : TranscribeOpts) : TranscribeOpts :=
  let dev := lowerStr (pyOrS o.device "cpu")
  let comp := pyOrS o.compute (if dev = "cuda" then "float16" else "int8")
  lowerValidate
    { model := some (pyOrS o.model "small"),
      device := some dev,
      compute := some comp,
      language := o.language,
      srt := some (pyOrB o.srt),
      vad := o.vad,
      beam_size := o.beam_size,
      best_of := o.best_of,
      temperature := o.temperature,
      prompt := o.prompt,
      condition_on_previous_text := o.condition_on_previous_text,
      word_timestamps := o.word_timestamps,
      diarize := o.diarize }

/-- The all-defaults options value (every field omitted), used to
instantiate the resolution theorem. -/
def optsDefaultW : TranscribeOpts :=
  { model := none, device := none, compute := none, language := none,
    srt := none, vad := none, beam_size := none, best_of := none,
    temperature := none, prompt := none,
    condition_on_previous_text := none, word_timestamps := none,
    diarize := none }

/-- A terminal (`done`) job row used to instantiate the universally
quantified theorems at a concrete input. -/
def jobDoneW : Job :=
  { id := "j", kind := "transcribe", payload_json := "{}",
    status := JobStatus.done, result_ref := some "tr", error := none,
    created_at := 0, updated_at := 2 }

/-! ## Store lemmas -/

theorem Store.get_put_of_get_some (s : Store) (i : String) (j j' : Job)
    (h : s.get i = some j) : (s.put i j').get i = some j' := by
  induction s with
  | nil => simp [Store.get] at h
  | cons p t ih =>
      by_cases hp : p.1 = i
      · simp [Store.put, Store.get, hp]
      · simp [Store.get, hp] at h
        simp [Store.put, Store.get, hp, ih h]

theorem Store.get_erase_self (s : Store) (i : String) :
    (s.erase i).get i = none := by
  induction s with
  | nil => simp [Store.erase, Store.get]
  | cons p t ih =>
      by_cases hp : p.1 = i
      · simp [Store.erase, hp, ih]
      · simp [Store.erase, Store.get, hp, ih]

theorem Store.get_erase_ne (s : Store) (i i' : String) (h : i' ≠ i) :
    (s.erase i).get i' = s.get i' := by
  induction s with
  | nil => simp [Store.erase]
  | cons p t ih =>
      by_cases hp : p.1 = i
      · simp [Store.erase, hp, ih, Store.get, Ne.symm h]
      · simp [Store.erase, Store.get, hp, ih]

theorem update_job_progress_get (s : Store) (i : String) (j : Job) (p : ℚ)
    (st : Option String) (eta : Option ℚ) (now : ℚ) (h : s.get i = some j) :
    (update_job_progress s i p st eta now).get i =
      some { j with updated_at := now } := by
  unfold update_job_progress
  rw [h]
  exact Store.get_put_of_get_some s i j _ h

theorem mark_job_running_get (s : Store) (i : String) (j : Job) (now : ℚ)
    (h : s.get i = some j) :
    (mark_job_running s i now).get i =
      some { j with status := JobStatus.running, updated_at := now } := by
  unfold mark_job_running
  rw [h]
  exact Store.get_put_of_get_some s i j _ h

theorem update_job_status_get (s : Store) (i : String) (j : Job)
    (status : JobStatus) (ref err : Option String) (now : ℚ)
    (h : s.get i = some j) :
    (update_job_status s i status ref err now).get i =
      some { j with status := status, result_ref := ref, error := err,
                    updated_at := now } := by
  unfold update_job_status
  rw [h]
  exact Store.get_put_of_get_some s i j _ h

/-! ## Claim C1 — terminal stickiness of update_progress / mark_running -/

/-- Claim C1, counterexample: a job brought to `done` through
`create_job`/`mark_job_running`/`update_job_status` is *not* left unchanged
by a later `update_job_progress` (the persisted updated_at timestamp moves)
nor by a later `mark_job_running` (the persisted status column reverts to
running), contradicting the claimed no-op on "status ... and timestamps". -/
theorem C1_counterexample :
    let s0 := create_job [] "j" "transcribe" "{}" JobStatus.queued 0
    let s1 := mark_job_running s0 "j" 1
    let s2 := update_job_status s1 "j" JobStatus.done (some "tr") none 2
    ((s2.get "j").map Job.status = some JobStatus.done) ∧
    update_job_progress s2 "j" (1 / 2) none none 3 ≠ s2 ∧
    ((update_job_progress s2 "j" (1 / 2) none none 3).get "j").map
        Job.updated_at = some 3 ∧
    ((s2.get "j").map Job.updated_at = some 2) ∧
    mark_job_running s2 "j" 3 ≠ s2 ∧
    ((mark_job_running s2 "j" 3).get "j").map Job.status =
      some JobStatus.running := by
  with_unfolding_all decide

/-- Claim C1 (amended): `update_job_progress` and `mark_job_running` carry
no status guard — on a job whose status is terminal (`done` or `error`),
`mark_job_running` still sets the persisted status back to running and
refreshes updated_at, and `update_job_progress` still refreshes updated_at
(its progress/stage/eta writes hit no column of the `Job` table and are
discarded, so updated_at is all it persists); only a missing job id makes
the calls no-ops. -/
theorem C1_update_after_terminal (s : Store) (i : String) (j : Job) (p : ℚ)
    (st : Option String) (eta : Option ℚ) (now : ℚ)
    (h : s.get i = some j) (_hterm : j.status.isTerminal = true) :
    (update_job_progress s i p st eta now).get i =
      some { j with updated_at := now } ∧
    (mark_job_running s i now).get i =
      some { j with status := JobStatus.running, updated_at := now } :=
  ⟨update_job_progress_get s i j p st eta now h,
   mark_job_running_get s i j now h⟩

/-- Claim C1, witness: the amended theorem applied to a concrete store
holding a `done` job. -/
theorem C1_witness :
    (update_job_progress [("j", jobDoneW)] "j" (3 / 2) none none 5).get "j" =
      some { jobDoneW with updated_at := 5 } ∧
    (mark_job_running [("j", jobDoneW)] "j" 5).get "j" =
      some { jobDoneW with status := JobStatus.running, updated_at := 5 } :=
  C1_update_after_terminal [("j", jobDoneW)] "j" jobDoneW (3 / 2) none none 5
    (by with_unfolding_all decide) (by decide)

/-! ## Claim C5 — job delete returns whether a row existed and was removed -/

/-- Claim C5: `delete_job` returns true exactly when a row with the id
exists; on true, the row with that id is gone and every other row is
untouched; on false, the store is unchanged.  (`crud.delete_job` is not in
`src/`; the definition is modelled from the spec, see its doc comment.) -/
theorem C5_delete_job (s : Store) (i : String) :
    ((delete_job s i).1 = true ↔ (s.get i).isSome = true) ∧
    ((delete_job s i).1 = true → (delete_job s i).2.get i = none) ∧
    ((delete_job s i).1 = false → (delete_job s i).2 = s) ∧
    (∀ i' : String, i' ≠ i → (delete_job s i).2.get i' = s.get i') := by
  unfold delete_job
  cases hg : s.get i with
  | none =>
      refine ⟨by simp, by simp, by simp, ?_⟩
      intro i' _
      simp
  | some j =>
      refine ⟨by simp, ?_, by simp, ?_⟩
      · intro _
        simpa using Store.get_erase_self s i
      · intro i' hne
        simpa using Store.get_erase_ne s i i' hne

/-- Claim C5, witness: the delete theorem applied to a concrete one-row
store, with the row-absent direction taken on the emptied store. -/
theorem C5_witness :
    (delete_job [("j", jobDoneW)] "j").1 = true ∧
    Store.get (delete_job [("j", jobDoneW)] "j").2 "j" = none ∧
    Store.get (delete_job [("j", jobDoneW)] "j").2 "k" =
      Store.get [("j", jobDoneW)] "k" ∧
    (delete_job ([] : Store) "j").1 = false ∧
    (delete_job ([] : Store) "j").2 = ([] : Store) :=
  ⟨((C5_delete_job [("j", jobDoneW)] "j").1).mpr (by with_unfolding_all decide),
   (C5_delete_job [("j", jobDoneW)] "j").2.1 (by with_unfolding_all decide),
   (C5_delete_job [("j", jobDoneW)] "j").2.2.2 "k" (by decide),
   by decide,
   (C5_delete_job ([] : Store) "j").2.2.1 (by decide)⟩

/-! ## Claim C6 — the clamped progress is computed but never stored -/

/-- Claim C6 (code bug): `update_job_progress` computes the clamp
`p = max(0.0, min(1.0, float(progress)))` exactly as the claim describes —
1.5 clamps to 1.0, -0.2 to 0.0, any in-range input is unchanged, and the
result always lies in [0,1] — but it assigns `p` to `job.progress`, which
is not a column of the `Job` table (models.py lines 38-46), so on an
existing job the committed row changes only in updated_at and no progress
value is stored at all.  The claim matches the clear intent: crud writes
the attribute, `api/jobs.py` reads `job.progress` back, the
`JobGetResponse` schema declares a progress field, and spec §3 declares
`progress` a Job field — the missing column contradicts all of them. -/
theorem C6_progress_not_stored (s : Store) (i : String) (j : Job) (p : ℚ)
    (st : Option String) (eta : Option ℚ) (now : ℚ)
    (h : s.get i = some j) :
    clampedProgress p = max 0 (min 1 p) ∧
    (0 ≤ clampedProgress p ∧ clampedProgress p ≤ 1) ∧
    clampedProgress (3 / 2) = 1 ∧
    clampedProgress (-(2 / 10)) = 0 ∧
    (0 ≤ p → p ≤ 1 → clampedProgress p = p) ∧
    (update_job_progress s i p st eta now).get i =
      some { j with updated_at := now } := by
  refine ⟨rfl,
          ⟨le_max_left 0 _,
           max_le (by norm_num) (min_le_left 1 p)⟩,
          by norm_num [clampedProgress],
          by norm_num [clampedProgress],
          ?_,
          update_job_progress_get s i j p st eta now h⟩
  intro h0 h1
  simp [clampedProgress, min_eq_right h1, max_eq_right h0]

/-- Claim C6, witness: the theorem applied to a concrete store with the
out-of-range input 3/2 and, separately, the in-range input 1/2. -/
theorem C6_witness :
    clampedProgress (3 / 2) = max 0 (min 1 (3 / 2)) ∧
    (0 ≤ clampedProgress (3 / 2) ∧ clampedProgress (3 / 2) ≤ 1) ∧
    clampedProgress (3 / 2) = 1 ∧
    clampedProgress (-(2 / 10)) = 0 ∧
    clampedProgress (1 / 2) = 1 / 2 ∧
    (update_job_progress [("j", jobDoneW)] "j" (3 / 2) none none 5).get
      "j" = some { jobDoneW with updated_at := 5 } :=
  have h32 := C6_progress_not_stored [("j", jobDoneW)] "j" jobDoneW (3 / 2)
    none none 5 (by with_unfolding_all decide)
  have h12 := C6_progress_not_stored [("j", jobDoneW)] "j" jobDoneW (1 / 2)
    none none 5 (by with_unfolding_all decide)
  ⟨h32.1, h32.2.1, h32.2.2.1, h32.2.2.2.1,
   h12.2.2.2.2.1 (by norm_num) (by norm_num), h32.2.2.2.2.2⟩

/-! ## Claim C4 — the progress estimator -/

/-- Claim C4: `_progress_cb` is, as a pure function of
(decoded_seconds, total_duration, elapsed): for positive total,
progress `min(decoded/total, 0.99)` (hence always below 1) and eta
`(elapsed / max(progress, 1e-3)) * (1 - progress)`; for total ≤ 0,
progress `min(0.9, elapsed/60)` with no eta; and on the spec's example
(total 100, decoded 50, elapsed 10) it yields progress 1/2 and eta 10,
while decoded 99.9 caps at 0.99. -/
theorem C4_progress_estimator :
    (∀ decoded total elapsed : ℚ, 0 < total →
      progress_cb decoded total elapsed =
        (min (decoded / total) (99 / 100),
         some ((elapsed / max (min (decoded / total) (99 / 100)) (1 / 1000))
           * (1 - min (decoded / total) (99 / 100)))) ∧
      (progress_cb decoded total elapsed).1 < 1) ∧
    (∀ decoded total elapsed : ℚ, total ≤ 0 →
      progress_cb decoded total elapsed =
        (min (9 / 10) (elapsed / 60), none)) ∧
    progress_cb 50 100 10 = (1 / 2, some 10) ∧
    (progress_cb (999 / 10) 100 10).1 = 99 / 100 := by
  refine ⟨?_, ?_, by with_unfolding_all decide, by with_unfolding_all decide⟩
  · intro decoded total elapsed hpos
    constructor
    · simp [progress_cb, if_pos hpos]
    · simp only [progress_cb, if_pos hpos]
      exact lt_of_le_of_lt (min_le_right _ _) (by norm_num)
  · intro decoded total elapsed hnonpos
    simp [progress_cb, not_lt.mpr hnonpos]

/-- Claim C4, witness: both implications of the estimator theorem applied
at concrete inputs. -/
theorem C4_witness :
    (progress_cb 50 100 10 =
      (min ((50 : ℚ) / 100) (99 / 100),
       some ((10 / max (min ((50 : ℚ) / 100) (99 / 100)) (1 / 1000))
         * (1 - min ((50 : ℚ) / 100) (99 / 100)))) ∧
     (progress_cb 50 100 10).1 < 1) ∧
    progress_cb 7 0 30 = (min (9 / 10) ((30 : ℚ) / 60), none) :=
  ⟨C4_progress_estimator.1 50 100 10 (by norm_num),
   C4_progress_estimator.2.1 7 0 30 (by norm_num)⟩

/-! ## Claim C8 — diarization is strictly best-effort -/

/-- Every speaker map that cannot arise (no diarization, or a failed
diarization) leaves the enumerated output loop labelling nothing. -/
theorem txtLinesFrom_empty_map (segs : List (ℚ × ℚ × String)) :
    ∀ k : Nat, txtLinesFrom k segs [] = segs.map fun g => g.2.2.trim := by
  induction segs with
  | nil => intro k; rfl
  | cons g t ih =>
      intro k
      simp [txtLinesFrom, segLine, mapLookup, ih (k + 1)]

/-- Claim C8: any failure of the diarization step (`_try_diarize` maps every
exception outcome to `None`) leaves the transcription output identical to
the label-free output of a run without diarization: every line is the
stripped segment text with no speaker label, and the job-level flow never
sees an error from this step. -/
theorem C8_diarization_best_effort (segs : List (ℚ × ℚ × String))
    (msg : String) (py : Except String (List (ℚ × ℚ × String))) :
    try_diarize (Except.error msg) = none ∧
    transcribeTxtLines segs true (Except.error msg) =
      (segs.map fun g => g.2.2.trim) ∧
    transcribeTxtLines segs false py = (segs.map fun g => g.2.2.trim) := by
  refine ⟨rfl, ?_, ?_⟩
  · simp [transcribeTxtLines, try_diarize, txtLinesFrom_empty_map segs 0]
  · simp [transcribeTxtLines, txtLinesFrom_empty_map segs 0]

/-! ## Claim C10 — option resolution -/

theorem lowerChar_idem (c : Char) : lowerChar (lowerChar c) = lowerChar c := by
  unfold lowerChar
  by_cases h : 65 ≤ c.toNat ∧ c.toNat ≤ 90
  · rw [if_pos h]
    obtain ⟨h1, h2⟩ := h
    set n := c.toNat with hn
    interval_cases n <;> with_unfolding_all decide
  · rw [if_neg h, if_neg h]

theorem lowerStr_idem (s : String) : lowerStr (lowerStr s) = lowerStr s := by
  show String.mk (List.map lowerChar (List.map lowerChar s.data)) =
    String.mk (List.map lowerChar s.data)
  rw [List.map_map]
  exact congrArg String.mk (List.map_congr_left fun a _ => lowerChar_idem a)

theorem lowerStr_eq_empty_iff (s : String) : lowerStr s = "" ↔ s = "" := by
  constructor
  · intro h
    have hd : s.data.map lowerChar = [] := congrArg String.data h
    have : s.data = [] := List.map_eq_nil_iff.mp hd
    cases s
    simp_all
  · rintro rfl
    rfl

theorem lowerStr_ne_empty (s : String) (h : s ≠ "") : lowerStr s ≠ "" :=
  fun hc => h ((lowerStr_eq_empty_iff s).mp hc)

theorem pyOrS_ne_empty (x : Option String) (d : String) (hd : d ≠ "") :
    pyOrS x d ≠ "" := by
  cases x with
  | none => exact hd
  | some s =>
      by_cases hs : s = "" <;> simp [pyOrS, hs, hd]

theorem pyOrS_some (s d : String) (h : s ≠ "") : pyOrS (some s) d = s := by
  simp [pyOrS, h]

theorem pyOrB_some (b : Bool) : pyOrB (some b) = b := rfl

/-- `o.resolved` written out field by field. -/
theorem resolved_eq (o : TranscribeOpts) :
    o.resolved =
      { model := some (lowerStr (pyOrS o.model "small")),
        device := some (lowerStr (lowerStr (pyOrS o.device "cpu"))),
        compute := some (lowerStr (pyOrS o.compute
          (if lowerStr (pyOrS o.device "cpu") = "cuda"
           then "float16" else "int8"))),
        language := o.language,
        srt := some (pyOrB o.srt),
        vad := o.vad,
        beam_size := o.beam_size,
        best_of := o.best_of,
        temperature := o.temperature,
        prompt := o.prompt,
        condition_on_previous_text := o.condition_on_previous_text,
        word_timestamps := o.word_timestamps,
        diarize := o.diarize } := rfl

/-- Claim C10: `TranscribeOpts.resolved` is idempotent, every resolved value
has non-null model, device and compute, an omitted device resolves to "cpu",
and an omitted compute resolves to "float16" exactly when the resolved
device is "cuda" and to "int8" otherwise. -/
theorem C10_resolved_idempotent (o : TranscribeOpts) :
    o.resolved.resolved = o.resolved ∧
    o.resolved.model ≠ none ∧
    o.resolved.device ≠ none ∧
    o.resolved.compute ≠ none ∧
    (o.device = none → o.resolved.device = some "cpu") ∧
    (o.compute = none →
      o.resolved.compute =
        some (if o.resolved.device = some "cuda"
              then "float16" else "int8")) := by
  have hm : pyOrS o.model "small" ≠ "" := pyOrS_ne_empty _ _ (by decide)
  have hd : pyOrS o.device "cpu" ≠ "" := pyOrS_ne_empty _ _ (by decide)
  have hc : pyOrS o.compute
      (if lowerStr (pyOrS o.device "cpu") = "cuda"
       then "float16" else "int8") ≠ "" :=
    pyOrS_ne_empty _ _ (by split <;> decide)
  have hm1 := lowerStr_ne_empty _ hm
  have hd1 := lowerStr_ne_empty _ hd
  have hd2 := lowerStr_ne_empty _ hd1
  have hc1 := lowerStr_ne_empty _ hc
  have hcpu : lowerStr "cpu" = "cpu" := by with_unfolding_all decide
  have hf16 : lowerStr "float16" = "float16" := by with_unfolding_all decide
  have hi8 : lowerStr "int8" = "int8" := by with_unfolding_all decide
  refine ⟨?_, ?_, ?_, ?_, ?_, ?_⟩
  · rw [resolved_eq o, resolved_eq]
    simp [pyOrS_some _ _ hm1, pyOrS_some _ _ hd1, pyOrS_some _ _ hd2,
          pyOrS_some _ _ hc1, lowerStr_idem, pyOrB_some]
  · rw [resolved_eq o]
    simp
  · rw [resolved_eq o]
    simp
  · rw [resolved_eq o]
    simp
  · intro hdev
    rw [resolved_eq o]
    simp [hdev, pyOrS, hcpu]
  · intro hcomp
    rw [resolved_eq o]
    simp only [hcomp, pyOrS, lowerStr_idem]
    split
    · rename_i hcond
      simp [hf16, hcond]
    · rename_i hcond
      simp [hi8, hcond]

/-- Claim C10, witness: the resolution theorem applied to the all-defaults
options value, with both default-implications discharged. -/
theorem C10_witness :
    optsDefaultW.resolved.resolved = optsDefaultW.resolved ∧
    optsDefaultW.resolved.model ≠ none ∧
    optsDefaultW.resolved.device ≠ none ∧
    optsDefaultW.resolved.compute ≠ none ∧
    optsDefaultW.resolved.device = some "cpu" ∧
    optsDefaultW.resolved.compute =
      some (if optsDefaultW.resolved.device = some "cuda"
            then "float16" else "int8") :=
  have h := C10_resolved_idempotent optsDefaultW
  ⟨h.1, h.2.1, h.2.2.1, h.2.2.2.1, h.2.2.2.2.1 rfl, h.2.2.2.2.2 rfl⟩

/-! ## Claim C3 — the segment aligner -/

theorem segOverlap_nonneg (a0 a1 b0 b1 : ℚ) : 0 ≤ segOverlap a0 a1 b0 b1 :=
  le_max_left 0 _

theorem specMaxOverlap_nil (a0 a1 : ℚ) : specMaxOverlap a0 a1 [] = 0 := rfl

theorem specMaxOverlap_cons (a0 a1 : ℚ) (d : ℚ × ℚ × String)
    (t : List (ℚ × ℚ × String)) :
    specMaxOverlap a0 a1 (d :: t) =
      max (segOverlap a0 a1 d.1 d.2.1) (specMaxOverlap a0 a1 t) := rfl

theorem specMaxOverlap_nonneg (a0 a1 : ℚ) (ds : List (ℚ × ℚ × String)) :
    0 ≤ specMaxOverlap a0 a1 ds := by
  induction ds with
  | nil => exact le_refl 0
  | cons d t ih =>
      rw [specMaxOverlap_cons]
      exact le_max_of_le_right ih

/-- The running best overlap of the inner loop is the maximum of the initial
value and the greatest overlap among the remaining speaker segments. -/
theorem bestFold_snd (a0 a1 : ℚ) (ds : List (ℚ × ℚ × String)) :
    ∀ (o : Option String) (v : ℚ), 0 ≤ v →
      (ds.foldl (bestStep a0 a1) (o, v)).2 =
        max v (specMaxOverlap a0 a1 ds) := by
  induction ds with
  | nil =>
      intro o v hv
      simp [specMaxOverlap_nil, max_eq_left hv]
  | cons d t ih =>
      intro o v hv
      rw [List.foldl_cons, specMaxOverlap_cons]
      by_cases hlt : v < segOverlap a0 a1 d.1 d.2.1
      · simp only [bestStep, hlt, if_true]
        rw [ih _ _ (segOverlap_nonneg a0 a1 d.1 d.2.1)]
        exact (max_eq_right (le_trans (le_of_lt hlt) (le_max_left _ _))).symm
      · simp only [bestStep, hlt, if_false]
        rw [ih o v hv, ← max_assoc, max_eq_left (not_lt.mp hlt)]

/-- The selected speaker of the inner loop: the initial candidate when
nothing beats the initial overlap strictly, else the label of the earliest
speaker segment attaining the greatest overlap. -/
theorem bestFold_fst (a0 a1 : ℚ) (ds : List (ℚ × ℚ × String)) :
    ∀ (o : Option String) (v : ℚ), 0 ≤ v →
      (ds.foldl (bestStep a0 a1) (o, v)).1 =
        if specMaxOverlap a0 a1 ds ≤ v then o
        else (ds.find? fun d =>
            segOverlap a0 a1 d.1 d.2.1 = specMaxOverlap a0 a1 ds).map
          fun d => d.2.2 := by
  induction ds with
  | nil =>
      intro o v hv
      simp [specMaxOverlap_nil, hv]
  | cons d t ih =>
      intro o v hv
      rw [List.foldl_cons, specMaxOverlap_cons]
      by_cases hlt : v < segOverlap a0 a1 d.1 d.2.1
      · simp only [bestStep, hlt, if_true]
        rw [ih (some d.2.2) _ (segOverlap_nonneg a0 a1 d.1 d.2.1)]
        by_cases hM : specMaxOverlap a0 a1 t ≤ segOverlap a0 a1 d.1 d.2.1
        · rw [max_eq_left hM, if_pos hM, if_neg (not_le.mpr hlt)]
          rw [List.find?_cons_of_pos _ (by simp)]
          rfl
        · push_neg at hM
          rw [max_eq_right (le_of_lt hM), if_neg (not_le.mpr hM),
              if_neg (not_le.mpr (lt_trans hlt hM))]
          rw [List.find?_cons_of_neg _ (by simp [ne_of_lt hM])]
      · push_neg at hlt
        simp only [bestStep, not_lt.mpr hlt, if_false]
        rw [ih o v hv]
        by_cases hMv : specMaxOverlap a0 a1 t ≤ v
        · rw [if_pos hMv, if_pos (max_le hlt hMv)]
        · push_neg at hMv
          have hovM : segOverlap a0 a1 d.1 d.2.1 < specMaxOverlap a0 a1 t :=
            lt_of_le_of_lt hlt hMv
          rw [max_eq_right (le_of_lt hovM), if_neg (not_le.mpr hMv),
              if_neg (not_le.mpr hMv)]
          rw [List.find?_cons_of_neg _ (by simp [ne_of_lt hovM])]

/-- `bestSpeaker` in spec terms: no label when nothing overlaps, else the
label of the earliest speaker segment attaining the greatest overlap. -/
theorem bestSpeaker_fst (a0 a1 : ℚ) (ds : List (ℚ × ℚ × String)) :
    (bestSpeaker a0 a1 ds).1 =
      if specMaxOverlap a0 a1 ds ≤ 0 then none
      else (ds.find? fun d =>
          segOverlap a0 a1 d.1 d.2.1 = specMaxOverlap a0 a1 ds).map
        fun d => d.2.2 :=
  bestFold_fst a0 a1 ds none 0 (le_refl 0)

/-- Every key inserted by the enumeration loop from index `k` on is at
least `k`. -/
theorem assignFrom_keys (ws : List (ℚ × ℚ)) :
    ∀ (k : Nat) (ds : List (ℚ × ℚ × String)) (p : Nat × String),
      p ∈ assignFrom k ws ds → k ≤ p.1 := by
  induction ws with
  | nil =>
      intro k ds p hp
      simp [assignFrom] at hp
  | cons w t ih =>
      intro k ds p hp
      unfold assignFrom at hp
      rw [List.mem_append] at hp
      rcases hp with hp | hp
      · split at hp
        · rename_i spk _
          split at hp
          · simp at hp
          · simp at hp
            subst hp
            simp
        · simp at hp
      · exact le_trans (Nat.le_succ k) (ih (k + 1) ds p hp)

/-- Looking up index `k + i` in the mapping built from index `k` on yields
exactly the per-segment result of the inner loop at segment `i`, filtered by
the truthiness test on the label. -/
theorem assignFrom_lookup (ws : List (ℚ × ℚ)) :
    ∀ (k i : Nat) (ds : List (ℚ × ℚ × String)),
      mapLookup (assignFrom k ws ds) (k + i) =
        match ws.get? i with
        | none => none
        | some w =>
            match (bestSpeaker w.1 w.2 ds).1 with
            | some spk => if spk = "" then none else some spk
            | none => none := by
  induction ws with
  | nil =>
      intro k i ds
      simp [assignFrom, mapLookup]
  | cons w t ih =>
      intro k i ds
      cases i with
      | zero =>
          unfold assignFrom
          rw [Nat.add_zero]
          have hnone : (assignFrom (k + 1) t ds).find?
              (fun p => p.1 = k) = none := by
            rw [List.find?_eq_none]
            intro p hp
            have hk := assignFrom_keys t (k + 1) ds p hp
            simp
            omega
          rcases hb : (bestSpeaker w.1 w.2 ds).1 with _ | spk
          · simp [mapLookup, hnone, hb]
          · by_cases hspk : spk = ""
            · simp [hspk, mapLookup, hnone, hb]
            · simp [hspk, mapLookup, hb, List.find?_cons]
      | succ i' =>
          unfold assignFrom
          have harith : k + (i' + 1) = (k + 1) + i' := by omega
          have htail : mapLookup (assignFrom (k + 1) t ds) (k + (i' + 1)) =
              match t.get? i' with
              | none => none
              | some w =>
                  match (bestSpeaker w.1 w.2 ds).1 with
                  | some spk => if spk = "" then none else some spk
                  | none => none := by
            rw [harith]
            exact ih (k + 1) i' ds
          have hne : ¬ k = k + (i' + 1) := by omega
          rcases hb : (bestSpeaker w.1 w.2 ds).1 with _ | spk
          · simpa [hb] using htail
          · by_cases hspk : spk = ""
            · simpa [hb, hspk] using htail
            · simpa [hb, hspk, mapLookup, List.find?_cons, hne]
                using htail

/-- Claim C3, counterexample: against the single speaker segment
`[0,10) → ""` (the empty-string label), the transcription segment `[0,10)`
has strictly greatest (and positive) overlap 10, so the claim requires the
mapping to contain that label at index 0 — but the code's truthiness test
`if best_spk:` drops it, returning no entry even though the best overlap is
not 0. -/
theorem C3_counterexample :
    segOverlap 0 10 0 10 = 10 ∧ (0 : ℚ) < 10 ∧
    specAssignSpeaker 0 10 [(0, 10, "")] = some "" ∧
    mapLookup (assign_speakers_to_segments [(0, 10)] [(0, 10, "")]) 0 =
      none := by
  with_unfolding_all decide

/-- Claim C3 (amended): provided every speaker label is a non-empty string,
the aligner maps each in-range transcription segment index to the label of
the speaker segment with strictly greatest overlap
`max(0, min(s1,b1) - max(s0,b0))` (ties to the earliest-evaluated), and
leaves the index unmapped when the best overlap is 0; a best speaker
segment carrying the empty-string label is also left unmapped (Python
truthiness of `best_spk`). -/
theorem C3_aligner (ws : List (ℚ × ℚ)) (ds : List (ℚ × ℚ × String))
    (i : Nat) (a0 a1 : ℚ) (hseg : ws.get? i = some (a0, a1))
    (hlab : ∀ d ∈ ds, d.2.2 ≠ "") :
    mapLookup (assign_speakers_to_segments ws ds) i =
      specAssignSpeaker a0 a1 ds := by
  unfold assign_speakers_to_segments
  have h := assignFrom_lookup ws 0 i ds
  rw [Nat.zero_add] at h
  rw [h, hseg]
  dsimp only
  rw [bestSpeaker_fst a0 a1 ds]
  unfold specAssignSpeaker
  by_cases hM : specMaxOverlap a0 a1 ds ≤ 0
  · rw [if_pos hM, if_neg (not_lt.mpr hM)]
  · rw [if_neg hM, if_pos (lt_of_not_le hM)]
    cases hfind : ds.find? (fun d =>
        segOverlap a0 a1 d.1 d.2.1 = specMaxOverlap a0 a1 ds) with
    | none => simp
    | some d =>
        have hd : d ∈ ds := List.mem_of_find?_eq_some hfind
        simp [hlab d hd]

/-- Claim C3, witness: the amended aligner theorem at the spec's exact-tie
example — segment `[0,10)` against `[0,5) → "A"`, `[5,10) → "B"` — matching
the spec selection (the earliest-evaluated tie, "A"). -/
theorem C3_witness :
    mapLookup (assign_speakers_to_segments [(0, 10)]
      [(0, 5, "A"), (5, 10, "B")]) 0 =
      specAssignSpeaker 0 10 [(0, 5, "A"), (5, 10, "B")] ∧
    specAssignSpeaker 0 10 [(0, 5, "A"), (5, 10, "B")] = some "A" :=
  ⟨C3_aligner [(0, 10)] [(0, 5, "A"), (5, 10, "B")] 0 0 10 rfl
      (by with_unfolding_all decide),
   by with_unfolding_all decide⟩

/-! ## Pipeline lemmas (for claims C2, C7 and C9) -/

theorem runActs_nil (i : String) (now : ℚ) (s : Store) :
    runActs i now s [] = s := rfl

theorem runActs_cons (i : String) (now : ℚ) (s : Store) (a : PAct)
    (acts : List PAct) :
    runActs i now s (a :: acts) = runActs i now (applyAct i now s a) acts :=
  rfl

theorem runActs_append (i : String) (now : ℚ) (s : Store)
    (l1 l2 : List PAct) :
    runActs i now s (l1 ++ l2) = runActs i now (runActs i now s l1) l2 :=
  List.foldl_append _ _ _ _

theorem mark_job_running_single (i : String) (j : Job) (now : ℚ) :
    mark_job_running [(i, j)] i now =
      [(i, { j with status := JobStatus.running, updated_at := now })] := by
  simp [mark_job_running, Store.get, Store.put]

theorem update_job_progress_single (i : String) (j : Job) (p : ℚ)
    (st : Option String) (eta : Option ℚ) (now : ℚ) :
    update_job_progress [(i, j)] i p st eta now =
      [(i, { j with updated_at := now })] := by
  simp [update_job_progress, Store.get, Store.put]

theorem update_job_status_single (i : String) (j : Job)
    (status : JobStatus) (ref err : Option String) (now : ℚ) :
    update_job_status [(i, j)] i status ref err now =
      [(i, { j with status := status, result_ref := ref, error := err,
                    updated_at := now })] := by
  simp [update_job_status, Store.get, Store.put]

/-- Any run of "decoding" progress updates keeps the store a single row for
the job and changes at most the update timestamp (nothing else of a
progress update is persisted). -/
theorem runActs_decoding (i : String) (now total : ℚ)
    (cbs : List (ℚ × ℚ)) :
    ∀ (j : Job), ∃ up,
      runActs i now [(i, j)]
        (cbs.map fun c => PAct.updProgress (progress_cb c.1 total c.2).1
          (some "decoding") (progress_cb c.1 total c.2).2) =
        [(i, { j with updated_at := up })] := by
  induction cbs with
  | nil =>
      intro j
      exact ⟨j.updated_at, rfl⟩
  | cons c cs ih =>
      intro j
      rw [List.map_cons, runActs_cons]
      have happ : applyAct i now [(i, j)]
          (PAct.updProgress (progress_cb c.1 total c.2).1 (some "decoding")
            (progress_cb c.1 total c.2).2) =
          update_job_progress [(i, j)] i (progress_cb c.1 total c.2).1
            (some "decoding") (progress_cb c.1 total c.2).2 now := rfl
      rw [happ, update_job_progress_single]
      obtain ⟨up, h⟩ := ih { j with updated_at := now }
      exact ⟨up, h⟩

/-- Every action of the try block is a progress update, a model load, a
transcript insert, the `done` transition with a result reference, or the
`error` transition with a message. -/
theorem tryActs_mem (total : ℚ) (cbs : List (ℚ × ℚ)) (outcome : TxOutcome)
    (a : PAct) (ha : a ∈ tryActs total cbs outcome) :
    (∃ p st eta, a = PAct.updProgress p st eta) ∨ a = PAct.loadModel ∨
    (∃ tr, a = PAct.createTranscript tr) ∨
    (∃ tr, a = PAct.updStatus JobStatus.done (some tr) none) ∨
    (∃ msg, a = PAct.updStatus JobStatus.error none (some msg)) := by
  cases outcome with
  | ok trId =>
      unfold tryActs at ha
      dsimp only at ha
      rcases List.mem_cons.mp ha with rfl | ha
      · exact Or.inl ⟨_, _, _, rfl⟩
      rcases List.mem_cons.mp ha with rfl | ha
      · exact Or.inr (Or.inl rfl)
      rcases List.mem_append.mp ha with hmap | htail
      · obtain ⟨c, _, rfl⟩ := List.mem_map.mp hmap
        exact Or.inl ⟨_, _, _, rfl⟩
      rcases List.mem_cons.mp htail with rfl | htail
      · exact Or.inl ⟨_, _, _, rfl⟩
      rcases List.mem_cons.mp htail with rfl | htail
      · exact Or.inr (Or.inr (Or.inl ⟨_, rfl⟩))
      rcases List.mem_cons.mp htail with rfl | htail
      · exact Or.inr (Or.inr (Or.inr (Or.inl ⟨_, rfl⟩)))
      · simp at htail
  | failed msg =>
      unfold tryActs at ha
      dsimp only at ha
      rcases List.mem_cons.mp ha with rfl | ha
      · exact Or.inl ⟨_, _, _, rfl⟩
      rcases List.mem_cons.mp ha with rfl | ha
      · exact Or.inr (Or.inl rfl)
      rcases List.mem_append.mp ha with hmap | htail
      · obtain ⟨c, _, rfl⟩ := List.mem_map.mp hmap
        exact Or.inl ⟨_, _, _, rfl⟩
      rcases List.mem_cons.mp htail with rfl | htail
      · exact Or.inr (Or.inr (Or.inr (Or.inr ⟨_, rfl⟩)))
      · simp at htail

/-- Every try-block action preserves the terminal-state invariant of the
job row (none of them is `markRunning`). -/
theorem StoreInv_applyAct (i : String) (now : ℚ) (s : Store) (a : PAct)
    (hshape : (∃ p st eta, a = PAct.updProgress p st eta) ∨
      a = PAct.loadModel ∨ (∃ tr, a = PAct.createTranscript tr) ∨
      (∃ tr, a = PAct.updStatus JobStatus.done (some tr) none) ∨
      (∃ msg, a = PAct.updStatus JobStatus.error none (some msg)))
    (hs : StoreInv i s) : StoreInv i (applyAct i now s a) := by
  rcases hshape with ⟨p, st, eta, rfl⟩ | rfl | ⟨tr, rfl⟩ | ⟨tr, rfl⟩ |
    ⟨msg, rfl⟩
  · intro j' hj'
    cases hg : s.get i with
    | none =>
        have hid : update_job_progress s i p st eta now = s := by
          unfold update_job_progress
          rw [hg]
        rw [show applyAct i now s (PAct.updProgress p st eta) =
          update_job_progress s i p st eta now from rfl, hid] at hj'
        exact hs j' hj'
    | some j =>
        rw [show applyAct i now s (PAct.updProgress p st eta) =
          update_job_progress s i p st eta now from rfl,
          update_job_progress_get s i j p st eta now hg] at hj'
        simp only [Option.some.injEq] at hj'
        subst hj'
        simpa [refErrInvariant] using hs j hg
  · exact hs
  · exact hs
  · intro j' hj'
    cases hg : s.get i with
    | none =>
        have hid : update_job_status s i JobStatus.done (some tr) none now
            = s := by
          unfold update_job_status
          rw [hg]
        rw [show applyAct i now s
          (PAct.updStatus JobStatus.done (some tr) none) =
          update_job_status s i JobStatus.done (some tr) none now from rfl,
          hid] at hj'
        exact hs j' hj'
    | some j =>
        rw [show applyAct i now s
          (PAct.updStatus JobStatus.done (some tr) none) =
          update_job_status s i JobStatus.done (some tr) none now from rfl,
          update_job_status_get s i j JobStatus.done (some tr) none now
            hg] at hj'
        simp only [Option.some.injEq] at hj'
        subst hj'
        simp [refErrInvariant, JobStatus.isTerminal]
  · intro j' hj'
    cases hg : s.get i with
    | none =>
        have hid : update_job_status s i JobStatus.error none (some msg) now
            = s := by
          unfold update_job_status
          rw [hg]
        rw [show applyAct i now s
          (PAct.updStatus JobStatus.error none (some msg)) =
          update_job_status s i JobStatus.error none (some msg) now from rfl,
          hid] at hj'
        exact hs j' hj'
    | some j =>
        rw [show applyAct i now s
          (PAct.updStatus JobStatus.error none (some msg)) =
          update_job_status s i JobStatus.error none (some msg) now from rfl,
          update_job_status_get s i j JobStatus.error none (some msg) now
            hg] at hj'
        simp only [Option.some.injEq] at hj'
        subst hj'
        simp [refErrInvariant, JobStatus.isTerminal]

/-- A property preserved by every action of a trace holds in every store
state along the trace. -/
theorem actStates_all (i : String) (now : ℚ) (acts : List PAct) :
    ∀ (s : Store), StoreInv i s →
      (∀ a ∈ acts, ∀ t, StoreInv i t → StoreInv i (applyAct i now t a)) →
      ∀ u ∈ actStates i now s acts, StoreInv i u := by
  induction acts with
  | nil =>
      intro s hs _ u hu
      simp only [actStates, List.mem_singleton] at hu
      subst hu
      exact hs
  | cons a as ih =>
      intro s hs hstep u hu
      simp only [actStates, List.mem_cons] at hu
      rcases hu with rfl | hu
      · exact hs
      · exact ih (applyAct i now s a)
          (hstep a (List.mem_cons_self a as) s hs)
          (fun b hb t ht => hstep b (List.mem_cons_of_mem a hb) t ht) u hu

/-! ## Claim C9 — exactly one of result_ref / error, only when terminal -/

/-- Claim C9: along every store state of a full job run — creation in
`queued` followed by the pipeline's action trace under any environment
(unknown recording, missing file, any number of progress callbacks, success
or failure) — a job row with terminal status has exactly one of result_ref
and error non-null, and a non-terminal row has both null. -/
theorem C9_ref_err_invariant (env : PipelineEnv)
    (jobId kind payload : String) (now0 now : ℚ) :
    ∀ s ∈ actStates jobId now
      (create_job [] jobId kind payload JobStatus.queued now0)
      (runTranscriptionActs env),
      ∀ j, s.get jobId = some j → refErrInvariant j := by
  intro s hs
  have hs0 : create_job [] jobId kind payload JobStatus.queued now0 =
      [(jobId, { id := jobId, kind := kind, payload_json := payload,
                 status := JobStatus.queued, result_ref := none,
                 error := none, created_at := now0,
                 updated_at := now0 })] := rfl
  have hinv0 : StoreInv jobId
      (create_job [] jobId kind payload JobStatus.queued now0) := by
    intro j hj
    rw [hs0] at hj
    simp [Store.get] at hj
    subst hj
    simp [refErrInvariant, JobStatus.isTerminal]
  cases hrec : env.recording with
  | none =>
      have hacts : runTranscriptionActs env =
          [PAct.updStatus JobStatus.error none
            (some "recording_not_found")] := by
        unfold runTranscriptionActs
        rw [hrec]
      rw [hacts] at hs
      refine actStates_all jobId now _ _ hinv0 ?_ s hs
      intro a ha t ht
      simp only [List.mem_singleton] at ha
      subst ha
      exact StoreInv_applyAct jobId now t _
        (Or.inr (Or.inr (Or.inr (Or.inr ⟨_, rfl⟩)))) ht
  | some r =>
      cases hfe : env.fileExists with
      | false =>
          have hacts : runTranscriptionActs env =
              [PAct.updStatus JobStatus.error none
                (some "original_missing")] := by
            unfold runTranscriptionActs
            rw [hrec]
            simp [hfe]
          rw [hacts] at hs
          refine actStates_all jobId now _ _ hinv0 ?_ s hs
          intro a ha t ht
          simp only [List.mem_singleton] at ha
          subst ha
          exact StoreInv_applyAct jobId now t _
            (Or.inr (Or.inr (Or.inr (Or.inr ⟨_, rfl⟩)))) ht
      | true =>
          have hacts : runTranscriptionActs env = PAct.markRunning ::
              tryActs (computeTotal r.duration_s env.probe) env.cbs
                env.outcome := by
            unfold runTranscriptionActs
            rw [hrec]
            simp [hfe]
          rw [hacts] at hs
          have hsplit : actStates jobId now
              (create_job [] jobId kind payload JobStatus.queued now0)
              (PAct.markRunning ::
                tryActs (computeTotal r.duration_s env.probe) env.cbs
                  env.outcome) =
              (create_job [] jobId kind payload JobStatus.queued now0) ::
              actStates jobId now
                (applyAct jobId now
                  (create_job [] jobId kind payload JobStatus.queued now0)
                  PAct.markRunning)
                (tryActs (computeTotal r.duration_s env.probe) env.cbs
                  env.outcome) := rfl
          rw [hsplit] at hs
          rcases List.mem_cons.mp hs with rfl | hs'
          · exact hinv0
          · have happ : applyAct jobId now
                (create_job [] jobId kind payload JobStatus.queued now0)
                PAct.markRunning =
                mark_job_running
                  (create_job [] jobId kind payload JobStatus.queued now0)
                  jobId now := rfl
            have hinv1 : StoreInv jobId
                (applyAct jobId now
                  (create_job [] jobId kind payload JobStatus.queued now0)
                  PAct.markRunning) := by
              rw [happ, hs0, mark_job_running_single]
              intro j hj
              simp [Store.get] at hj
              subst hj
              simp [refErrInvariant, JobStatus.isTerminal]
            exact actStates_all jobId now _ _ hinv1
              (fun a ha t ht => StoreInv_applyAct jobId now t a
                (tryActs_mem _ _ _ a ha) ht) s hs'

/-- Claim C9, witness: the invariant theorem applied to the concrete
successful run, at its final store state and final job row. -/
theorem C9_witness : refErrInvariant jobFinalW :=
  C9_ref_err_invariant envOkW "j" "transcribe" "{}" 0 1
    (runActs "j" 1 (create_job [] "j" "transcribe" "{}" JobStatus.queued 0)
      (runTranscriptionActs envOkW))
    (by with_unfolding_all decide) jobFinalW (by with_unfolding_all decide)

/-! ## Claim C7 — pre-flight failures -/

/-- Claim C7: when the recording row is unknown, or its original file
missing, the pipeline's whole trace is the single `error` transition
carrying the distinguishable message ("recording_not_found" resp.
"original_missing"): the job ends in `error` with that message, the trace
contains neither a `markRunning` nor a model load, and no store state ever
shows the job `running`. -/
theorem C7_preflight (env : PipelineEnv) (jobId kind payload : String)
    (now0 now : ℚ) :
    (env.recording = none →
      runTranscriptionActs env =
        [PAct.updStatus JobStatus.error none (some "recording_not_found")] ∧
      PAct.markRunning ∉ runTranscriptionActs env ∧
      PAct.loadModel ∉ runTranscriptionActs env ∧
      (pipelineFinal env jobId kind payload now0 now).map Job.status =
        some JobStatus.error ∧
      (pipelineFinal env jobId kind payload now0 now).map Job.error =
        some (some "recording_not_found") ∧
      (∀ s ∈ actStates jobId now
          (create_job [] jobId kind payload JobStatus.queued now0)
          (runTranscriptionActs env),
        ∀ j, s.get jobId = some j → j.status ≠ JobStatus.running)) ∧
    (∀ r : Recording, env.recording = some r → env.fileExists = false →
      runTranscriptionActs env =
        [PAct.updStatus JobStatus.error none (some "original_missing")] ∧
      PAct.markRunning ∉ runTranscriptionActs env ∧
      PAct.loadModel ∉ runTranscriptionActs env ∧
      (pipelineFinal env jobId kind payload now0 now).map Job.status =
        some JobStatus.error ∧
      (pipelineFinal env jobId kind payload now0 now).map Job.error =
        some (some "original_missing") ∧
      (∀ s ∈ actStates jobId now
          (create_job [] jobId kind payload JobStatus.queued now0)
          (runTranscriptionActs env),
        ∀ j, s.get jobId = some j → j.status ≠ JobStatus.running)) ∧
    ("recording_not_found" : String) ≠ "original_missing" := by
  have hs0 : create_job [] jobId kind payload JobStatus.queued now0 =
      [(jobId, { id := jobId, kind := kind, payload_json := payload,
                 status := JobStatus.queued, result_ref := none,
                 error := none, created_at := now0,
                 updated_at := now0 })] := rfl
  refine ⟨?_, ?_, by decide⟩
  · intro hrec
    have hacts : runTranscriptionActs env =
        [PAct.updStatus JobStatus.error none
          (some "recording_not_found")] := by
      unfold runTranscriptionActs
      rw [hrec]
    refine ⟨hacts, by rw [hacts]; decide, by rw [hacts]; decide, ?_, ?_, ?_⟩
    · unfold pipelineFinal
      rw [hacts, runActs_cons, runActs_nil,
        show applyAct jobId now
          (create_job [] jobId kind payload JobStatus.queued now0)
          (PAct.updStatus JobStatus.error none
            (some "recording_not_found")) =
          update_job_status
            (create_job [] jobId kind payload JobStatus.queued now0) jobId
            JobStatus.error none (some "recording_not_found") now from rfl,
        hs0, update_job_status_single]
      simp [Store.get]
    · unfold pipelineFinal
      rw [hacts, runActs_cons, runActs_nil,
        show applyAct jobId now
          (create_job [] jobId kind payload JobStatus.queued now0)
          (PAct.updStatus JobStatus.error none
            (some "recording_not_found")) =
          update_job_status
            (create_job [] jobId kind payload JobStatus.queued now0) jobId
            JobStatus.error none (some "recording_not_found") now from rfl,
        hs0, update_job_status_single]
      simp [Store.get]
    · intro s hs j hj
      rw [hacts] at hs
      rcases List.mem_cons.mp hs with rfl | hs'
      · rw [hs0] at hj
        simp [Store.get] at hj
        subst hj
        simp
      · simp only [actStates, List.mem_singleton] at hs'
        subst hs'
        rw [show applyAct jobId now
            (create_job [] jobId kind payload JobStatus.queued now0)
            (PAct.updStatus JobStatus.error none
              (some "recording_not_found")) =
            update_job_status
              (create_job [] jobId kind payload JobStatus.queued now0) jobId
              JobStatus.error none (some "recording_not_found") now from rfl,
          hs0, update_job_status_single] at hj
        simp [Store.get] at hj
        subst hj
        simp
  · intro r hrec hfile
    have hacts : runTranscriptionActs env =
        [PAct.updStatus JobStatus.error none (some "original_missing")] := by
      unfold runTranscriptionActs
      rw [hrec]
      simp [hfile]
    refine ⟨hacts, by rw [hacts]; decide, by rw [hacts]; decide, ?_, ?_, ?_⟩
    · unfold pipelineFinal
      rw [hacts, runActs_cons, runActs_nil,
        show applyAct jobId now
          (create_job [] jobId kind payload JobStatus.queued now0)
          (PAct.updStatus JobStatus.error none (some "original_missing")) =
          update_job_status
            (create_job [] jobId kind payload JobStatus.queued now0) jobId
            JobStatus.error none (some "original_missing") now from rfl,
        hs0, update_job_status_single]
      simp [Store.get]
    · unfold pipelineFinal
      rw [hacts, runActs_cons, runActs_nil,
        show applyAct jobId now
          (create_job [] jobId kind payload JobStatus.queued now0)
          (PAct.updStatus JobStatus.error none (some "original_missing")) =
          update_job_status
            (create_job [] jobId kind payload JobStatus.queued now0) jobId
            JobStatus.error none (some "original_missing") now from rfl,
        hs0, update_job_status_single]
      simp [Store.get]
    · intro s hs j hj
      rw [hacts] at hs
      rcases List.mem_cons.mp hs with rfl | hs'
      · rw [hs0] at hj
        simp [Store.get] at hj
        subst hj
        simp
      · simp only [actStates, List.mem_singleton] at hs'
        subst hs'
        rw [show applyAct jobId now
            (create_job [] jobId kind payload JobStatus.queued now0)
            (PAct.updStatus JobStatus.error none
              (some "original_missing")) =
            update_job_status
              (create_job [] jobId kind payload JobStatus.queued now0) jobId
              JobStatus.error none (some "original_missing") now from rfl,
          hs0, update_job_status_single] at hj
        simp [Store.get] at hj
        subst hj
        simp

/-- Claim C7, witness: both pre-flight branches applied to concrete
environments (unknown recording; recording present but file missing). -/
theorem C7_witness :
    runTranscriptionActs envMissW =
      [PAct.updStatus JobStatus.error none (some "recording_not_found")] ∧
    PAct.markRunning ∉ runTranscriptionActs envMissW ∧
    PAct.loadModel ∉ runTranscriptionActs envMissW ∧
    (pipelineFinal envMissW "j" "transcribe" "{}" 0 1).map Job.status =
      some JobStatus.error ∧
    (pipelineFinal envMissW "j" "transcribe" "{}" 0 1).map Job.error =
      some (some "recording_not_found") ∧
    (pipelineFinal envNoFileW "j" "transcribe" "{}" 0 1).map Job.error =
      some (some "original_missing") ∧
    ("recording_not_found" : String) ≠ "original_missing" :=
  have h1 := (C7_preflight envMissW "j" "transcribe" "{}" 0 1).1 rfl
  have h2 := (C7_preflight envNoFileW "j" "transcribe" "{}" 0 1).2.1
    { id := "r", original_path := "a.wav", duration_s := 100 } rfl rfl
  ⟨h1.1, h1.2.1, h1.2.2.1, h1.2.2.2.1, h1.2.2.2.2.1, h2.2.2.2.2.1,
   (C7_preflight envMissW "j" "transcribe" "{}" 0 1).2.2⟩

/-! ## Claim C2 — the fields left by a successful finish -/

/-- A successful try block leaves the persisted job row `done` with the
transcript reference, a null error and a refreshed updated_at; the
progress updates along the way persist nothing, since the `Job` table has
no progress/stage/eta_seconds columns. -/
theorem runActs_try_ok (i : String) (now total : ℚ) (cbs : List (ℚ × ℚ))
    (trId : String) (j : Job) :
    runActs i now [(i, j)] (tryActs total cbs (TxOutcome.ok trId)) =
      [(i, { j with status := JobStatus.done, result_ref := some trId,
                    error := none, updated_at := now })] := by
  unfold tryActs
  dsimp only
  rw [List.cons_append, List.cons_append]
  rw [runActs_cons,
    show applyAct i now [(i, j)]
      (PAct.updProgress (1 / 100) (some "loading_model") none) =
      update_job_progress [(i, j)] i (1 / 100) (some "loading_model") none
        now from rfl,
    update_job_progress_single]
  rw [runActs_cons,
    show ∀ t : Store, applyAct i now t PAct.loadModel = t from fun _ => rfl]
  rw [runActs_append]
  obtain ⟨up, hmid⟩ :=
    runActs_decoding i now total cbs { j with updated_at := now }
  rw [hmid]
  rw [runActs_cons,
    show ∀ t : Store, ∀ p st eta, applyAct i now t (PAct.updProgress p st
      eta) = update_job_progress t i p st eta now from fun _ _ _ _ => rfl,
    update_job_progress_single]
  rw [runActs_cons,
    show ∀ t : Store, applyAct i now t (PAct.createTranscript trId) = t
      from fun _ => rfl]
  rw [runActs_cons,
    show ∀ t : Store, applyAct i now t
      (PAct.updStatus JobStatus.done (some trId) none) =
      update_job_status t i JobStatus.done (some trId) none now
      from fun _ => rfl,
    update_job_status_single, runActs_nil]

/-- Claim C2, counterexample: on a concrete successful run (create at time
0, execute at time 1, recording duration 100, one callback, transcript id
"tr1") the finished job's entire persisted row is `jobFinalW` — its eight
columns hold result_ref "tr1" and a null error as claimed, but they
include no progress at all: the `Job` table has no progress column, so the
claimed stored progress of 1.0 does not exist.  Indeed the pipeline's own
final 0.99 "writing_output" write, replayed against that very row, leaves
the persisted store completely unchanged. -/
theorem C2_counterexample :
    pipelineFinal envOkW "j" "transcribe" "{}" 0 1 = some jobFinalW ∧
    (pipelineFinal envOkW "j" "transcribe" "{}" 0 1).map Job.result_ref =
      some (some "tr1") ∧
    (pipelineFinal envOkW "j" "transcribe" "{}" 0 1).map Job.error =
      some none ∧
    update_job_progress [("j", jobFinalW)] "j" (99 / 100)
      (some "writing_output") (some 0) 1 = [("j", jobFinalW)] := by
  with_unfolding_all decide

/-- Claim C2 (amended): after the pipeline's successful-finish call on an
existing job, the persisted row is exactly: status done, result_ref the
given transcript reference, error null, updated_at refreshed, and
id/kind/payload_json/created_at unchanged — no progress value (1.0 or
otherwise) is stored, because the `Job` table has no progress column (every
progress write, including the pipeline's final 0.99 one, is discarded) and
`update_job_status` writes only status, result_ref, error and
updated_at. -/
theorem C2_complete_fields (env : PipelineEnv) (r : Recording)
    (trId : String) (jobId kind payload : String) (now0 now : ℚ)
    (hrec : env.recording = some r) (hfile : env.fileExists = true)
    (hok : env.outcome = TxOutcome.ok trId) :
    pipelineFinal env jobId kind payload now0 now =
      some { id := jobId, kind := kind, payload_json := payload,
             status := JobStatus.done, result_ref := some trId,
             error := none, created_at := now0, updated_at := now } := by
  have hacts : runTranscriptionActs env = PAct.markRunning ::
      tryActs (computeTotal r.duration_s env.probe) env.cbs env.outcome := by
    unfold runTranscriptionActs
    rw [hrec]
    simp [hfile]
  have hs0 : create_job [] jobId kind payload JobStatus.queued now0 =
      [(jobId, { id := jobId, kind := kind, payload_json := payload,
                 status := JobStatus.queued, result_ref := none,
                 error := none, created_at := now0,
                 updated_at := now0 })] := rfl
  unfold pipelineFinal
  rw [hacts, hok, runActs_cons,
    show applyAct jobId now
      (create_job [] jobId kind payload JobStatus.queued now0)
      PAct.markRunning =
      mark_job_running
        (create_job [] jobId kind payload JobStatus.queued now0) jobId
        now from rfl,
    hs0, mark_job_running_single, runActs_try_ok]
  simp [Store.get]

/-- Claim C2, witness: the amended completion theorem applied to the
concrete successful run. -/
theorem C2_witness :
    pipelineFinal envOkW "j" "transcribe" "{}" 0 1 =
      some { id := "j", kind := "transcribe", payload_json := "{}",
             status := JobStatus.done, result_ref := some "tr1",
             error := none, created_at := 0, updated_at := 1 } :=
  C2_complete_fields envOkW
    { id := "r", original_path := "a.wav", duration_s := 100 } "tr1" "j"
    "transcribe" "{}" 0 1 rfl rfl rfl
